import Mathlib

/-!
# Verification of the gossiphaus client (src/index.js)

A shallow embedding of the gossip protocol client: its module-level state
(`St`), the `send` registration path (`sendRegister`), the inbound-frame
handler (`messageHandler`, fuel-indexed because delta events for unknown
games recursively process the pulled status responses), `close`,
`scheduleReconnect`, `init`, the synchronous part of `connect`
(`connectSyncActions`) and `findPlayer`.

JavaScript dynamic values are embedded as follows: a possibly-undefined
field is an `Option`; JS truthiness of a string is `strTruthy`; a template
literal interpolating a possibly-undefined value is `jsTemplate`
(`undefined` prints as "undefined"); a thrown `TypeError` from a property
access on `undefined` is the distinguished string `jsTypeError`.  Game
records are plain JS objects whose keys come from status payloads
(`game`, `players`, `supports`), from the `Object.assign({connected:
true}, ...)` insertion (`connected`) and nothing else; the `name` field
models the never-populated `name` key that the player-offline
invalidation branch reads.
-/

deriving instance DecidableEq for Except

namespace Gossiphaus

/-- JS truthiness of a possibly-undefined string: `undefined` and the
empty string are falsy. -/
def strTruthy : Option String → Bool
  | none => false
  | some s => s ≠ ""

/-- JS template-literal interpolation of a possibly-undefined string:
`undefined` prints as "undefined". -/
def jsTemplate : Option String → String
  | none => "undefined"
  | some s => s

/-- The error thrown by a JS property access on `undefined`. -/
def jsTypeError : String := "TypeError: cannot read property of undefined"

/-- The emitter correlation key: the event name and a ref string joined
by a colon. -/
def mkKey (event ref : String) : String := event ++ ":" ++ ref

/-- A remote game record in the `games` directory (a plain JS object). -/
structure Game where
  game : Option String := none
  name : Option String := none
  connected : Option Bool := none
  players : Option (List String) := none
  supports : Option (List String) := none
  deriving Repr, DecidableEq

/-- Payload of an inbound frame (`msg.payload`), as the handler reads it. -/
structure InPayload where
  game : Option String := none
  name : Option String := none
  players : Option (List String) := none
  supports : Option (List String) := none
  deriving Repr, DecidableEq

/-- Payload of an outbound request, as cached in `refs` and read back by
the error-invalidation branches. -/
structure ReqPayload where
  game : Option String := none
  name : Option String := none
  to_game : Option String := none
  to_name : Option String := none
  players : Option (List String) := none
  deriving Repr, DecidableEq

/-- An inbound frame: `{event, payload, ref, error}`. -/
structure Msg where
  event : String
  payload : Option InPayload := none
  ref : Option String := none
  error : Option String := none
  deriving Repr, DecidableEq

/-- An outbound frame as transmitted by `send`. -/
structure OutFrame where
  event : String
  payload : ReqPayload := {}
  ref : Option String := none
  deriving Repr, DecidableEq

/-- How a pending `send` promise was settled. -/
inductive Outcome where
  | resolved (msg : Msg)
  | rejected (error : String)
  deriving Repr, DecidableEq

/-- A one-shot `emitter.once` waiter registered by `send`. -/
inductive Waiter where
  | pending
  | settled (o : Outcome)
  deriving Repr, DecidableEq

/-- The `reconnectInterval` module variable: `undefined`, the raw config
number mistakenly stored by `init`, or a scheduled timer (tracked by its
delay in milliseconds). -/
inductive TimerVar where
  | unset
  | rawConfig (n : Nat)
  | scheduled (delayMs : Nat)
  deriving Repr, DecidableEq

/-- The client's module-level mutable state. -/
structure St where
  players : List String := []
  games : List Game := []
  alive : Bool := false
  connOpen : Bool := false
  refs : List (String × ReqPayload) := []
  waiters : List (String × Waiter) := []
  sent : List OutFrame := []
  nextRef : Nat := 0
  reconnectTimer : TimerVar := .unset
  url : String := "wss://gossip.haus/socket"
  statusWait : Nat := 100
  subscriberEvents : List (String × InPayload) := []
  deriving Repr, DecidableEq

/-- The initial module-level state. -/
def initialSt : St := {}

/-- Look up a waiter by key (`emitter` listener lookup). -/
def lookupWaiter (ws : List (String × Waiter)) (k : String) : Option Waiter :=
  (ws.find? (fun e => e.1 = k)).map Prod.snd

/-- `emitter.removeAllListeners(key)` followed by `emitter.once(key, cb)`:
drop any waiter under the key and register a fresh pending one. -/
def setWaiter (ws : List (String × Waiter)) (k : String) : List (String × Waiter) :=
  (k, Waiter.pending) :: ws.filter (fun e => e.1 ≠ k)

/-- The settlement the `send` callback produces for an emitted message:
reject with the error if `msg.error` is truthy, else resolve with `msg`. -/
def outcomeOf (m : Msg) : Outcome :=
  if strTruthy m.error then .rejected (m.error.getD "") else .resolved m

/-- `emitter.emit(key, msg)`: fire the (single, one-shot) pending waiter
registered under the key, if any. -/
def emitKey (ws : List (String × Waiter)) (k : String) (m : Msg) : List (String × Waiter) :=
  ws.map fun e => if e.1 = k ∧ e.2 = Waiter.pending then (k, Waiter.settled (outcomeOf m)) else e

/-- The uuid model: refs are generated from a counter. -/
def genRef (n : Nat) : String := "ref-" ++ toString n

/-- The synchronous body of `send(event, payload, ref)`: generate a ref
and cache the payload under it (when `ref` is true), register the one-shot
waiter under `event + ':' + (packet.ref || '')`, transmit the frame.
Returns the new state and the ref part of the waiter key. -/
def sendRegister (st : St) (event : String) (payload : ReqPayload) (wantRef : Bool) :
    St × String :=
  if wantRef then
    let r := genRef st.nextRef
    ({ st with
        nextRef := st.nextRef + 1
        refs := (r, payload) :: st.refs
        waiters := setWaiter st.waiters (mkKey event r)
        sent := st.sent ++ [{ event := event, payload := payload, ref := some r }] }, r)
  else
    ({ st with
        waiters := setWaiter st.waiters (mkKey event "")
        sent := st.sent ++ [{ event := event, payload := payload, ref := none }] }, "")

/-- Replace the first list element satisfying the test (JS mutates the
object returned by `Array.prototype.find` in place). -/
def updateFirst (l : List Game) (p : Game → Bool) (f : Game → Game) : List Game :=
  match l with
  | [] => []
  | g :: gs => if p g then f g :: gs else g :: updateFirst gs p f

/-- The `for (let key in msg.payload)` merge loop: every key present on
the payload overwrites the corresponding field of the game record;
absent keys leave it alone (`connected` is never a payload key). -/
def mergePayload (g : Game) (pl : InPayload) : Game :=
  { g with
      game := pl.game.orElse fun _ => g.game
      name := pl.name.orElse fun _ => g.name
      players := pl.players.orElse fun _ => g.players
      supports := pl.supports.orElse fun _ => g.supports }

/-- The `games/status` handler: insert
`Object.assign({connected: true}, msg.payload)` when the game is absent,
else merge the payload field-by-field into the existing record. -/
def gamesStatusApply (games : List Game) (pl : InPayload) : List Game :=
  if (games.find? (fun g => g.game = pl.game)).isSome then
    updateFirst games (fun g => g.game = pl.game) (fun g => mergePayload g pl)
  else
    games ++ [{ game := pl.game, name := pl.name, connected := some true,
                players := pl.players, supports := pl.supports }]

/-- The `players/status` handler: merge into an existing record, else
push the payload as-is (no `connected` key). -/
def playersStatusApply (games : List Game) (pl : InPayload) : List Game :=
  if (games.find? (fun g => g.game = pl.game)).isSome then
    updateFirst games (fun g => g.game = pl.game) (fun g => mergePayload g pl)
  else
    games ++ [{ game := pl.game, name := pl.name, connected := none,
                players := pl.players, supports := pl.supports }]

/-- The `players/sign-in` application to a found game record:
`if (!game.players) game.players = []`, then an idempotent push.  A
protocol sign-in frame always carries `name`; on a (non-protocol) frame
without it the JS would push `undefined` into the array, which this model
of string rosters leaves out. -/
def signInApply (g : Game) (name : Option String) : Game :=
  let ps := g.players.getD []
  match name with
  | some n => if ps.contains n then { g with players := some ps }
              else { g with players := some (ps ++ [n]) }
  | none => { g with players := some ps }

/-- The error-driven invalidation block of `messageHandler` (runs only
for frames with a truthy `error`).  `p?` is `refs[msg.ref]`: `none` means
the JS value was `undefined`, so a field access in a firing branch throws.
The three branch conditions are mutually exclusive, so the exception
short-circuit cannot discard an earlier branch's update. -/
def errorInvalidate (games : List Game) (event error : String) (p? : Option ReqPayload) :
    Except String (List Game) := do
  let games ← do
    if event = "tells/send" ∧ error = "game offline" then
      match p? with
      | none => Except.error jsTypeError
      | some p => pure (updateFirst games (fun g => g.game = p.to_game)
          (fun g => { g with connected := some false }))
    else pure games
  let games ← do
    if event = "games/status" ∧ error = "unknown game" then
      match p? with
      | none => Except.error jsTypeError
      | some p => pure (updateFirst games (fun g => g.game = p.to_game)
          (fun g => { g with connected := some false }))
    else pure games
  let games ← do
    if event = "tells/send" ∧ error = "player offline" then
      match p? with
      | none => Except.error jsTypeError
      | some p =>
        match games.find? (fun g => g.name = p.to_game) with
        | none => pure games
        | some gm =>
          match gm.players with
          | none => Except.error jsTypeError
          | some ps =>
            match ps.find? (fun n => some n = p.to_name) with
            | none => pure games
            | some n =>
              if n = "" then pure games
              else pure (updateFirst games (fun g => g.name = p.to_game)
                  (fun g => { g with players := some (ps.filter (fun m => ¬ some m = p.to_name)) }))
    else pure games
  pure games

/-- `close()`: set `alive = false` and close the websocket.  The
`try/catch` swallows any exception from `conn.close()`, so `close` is a
total function; it touches no timer. -/
def close (st : St) : St := { st with alive := false, connOpen := false }

/-- `scheduleReconnect(seconds)`: clear whatever the `reconnectInterval`
variable holds and schedule a reconnect after `seconds * 1000` ms. -/
def scheduleReconnect (seconds : Nat) (st : St) : St :=
  { st with reconnectTimer := .scheduled (seconds * 1000) }

/-- The `conn.on('close')` listener: mark not-alive then
`scheduleReconnect(5)`. -/
def onConnClose (st : St) : St := scheduleReconnect 5 { st with alive := false }

/-- The configuration object passed to `init`; an absent key is `none`. -/
structure Config where
  client_id : Option String := none
  client_secret : Option String := none
  url : Option String := none
  statusWait : Option Nat := none
  reconnectIntervalTime : Option Nat := none
  deriving Repr, DecidableEq

/-- `init(setConfig)`: pull `url` and `statusWait` out of the config, and
assign `config.reconnectIntervalTime` to the `reconnectInterval`
timer-handle variable (the source stores the configured delay into the
handle, not into any delay variable); create a fresh emitter. -/
def init (cfg : Config) (st : St) : St :=
  { st with
      url := cfg.url.getD st.url
      statusWait := cfg.statusWait.getD st.statusWait
      reconnectTimer := match cfg.reconnectIntervalTime with
        | some n => .rawConfig n
        | none => st.reconnectTimer
      waiters := [] }

/-- The observable synchronous actions of `connect()`'s executor. -/
inductive ConnectAction where
  | reject (msg : String)
  | openTransport (url : String)
  | throwErr (msg : String)
  | installHandlers
  deriving Repr, DecidableEq

/-- The synchronous prefix of `connect()`: reject when already alive;
otherwise construct the WebSocket first, then check `client_id` and
`client_secret` (throwing on a falsy one), then install the listeners. -/
def connectSyncActions (alive : Bool) (cfg : Config) (url : String) : List ConnectAction :=
  if alive then
    [.reject "Attempted to connect() with active connection, call .close() first"]
  else
    .openTransport url ::
      (if ¬ strTruthy cfg.client_id then [.throwErr "client_id is required"]
       else if ¬ strTruthy cfg.client_secret then [.throwErr "client_secret is required"]
       else [.installHandlers])

/-- The result `{game, name}` of a successful `findPlayer`. -/
structure PlayerRef where
  game : String
  name : String
  deriving Repr, DecidableEq

/-- JS `String.prototype.split` with a single-character separator, over
the character list: splitting the empty string gives one empty part. -/
def splitAtSep (sep : Char) : List Char → List (List Char)
  | [] => [[]]
  | c :: rest =>
    let r := splitAtSep sep rest
    if c = sep then [] :: r
    else
      match r with
      | [] => [[c]]
      | h :: t => (c :: h) :: t

/-- JS `remoteName.split(sep)` as a list of strings. -/
def jsSplit (sep : Char) (s : String) : List String :=
  (splitAtSep sep s.data).map String.mk

/-- JS `toLowerCase`, over the character list. -/
def jsToLower (s : String) : String := String.mk (s.data.map Char.toLower)

/-- The `games.find` callback loop of `findPlayer`.  The callback
evaluates `g.game.toLowerCase()` first (throwing on an undefined `game`
key) and then `gameName.toLowerCase()` (throwing when the identifier had
no separator); on an empty directory the callback never runs, so nothing
throws.  Returns the matched record with the canonical game name. -/
def findGameCI (games : List Game) (target : Option String) :
    Except String (Option (String × Game)) :=
  match games with
  | [] => .ok none
  | g :: gs =>
    match g.game with
    | none => .error jsTypeError
    | some gn =>
      match target with
      | none => .error jsTypeError
      | some t =>
        if jsToLower gn = jsToLower t then .ok (some (gn, g)) else findGameCI gs target

/-- The `game.players.find` step of `findPlayer`: accessing `.find` on an
undefined `players` key throws. -/
def findNameCI (players : Option (List String)) (target : String) :
    Except String (Option String) :=
  match players with
  | none => .error jsTypeError
  | some ps => .ok (ps.find? (fun n => jsToLower n = jsToLower target))

/-- `findPlayer(remoteName)`: split on the separator, case-insensitively
match the game half against the directory and the name half against that
game's player list, and return the canonically-capitalized pair; `false`
(here `none`) when either half fails to match.  A found empty-string
player name is falsy in JS and also yields `false`. -/
def findPlayer (games : List Game) (remoteName : String) :
    Except String (Option PlayerRef) :=
  let parts := jsSplit '@' remoteName
  let playerName := parts.headD ""
  match findGameCI games parts[1]? with
  | .error e => .error e
  | .ok none => .ok none
  | .ok (some (gn, gm)) =>
    match findNameCI gm.players playerName with
    | .error e => .error e
    | .ok none => .ok none
    | .ok (some n) => if n = "" then .ok none else .ok (some { game := gn, name := n })

/-- Modelled from the spec's words (the `findPlayer` contract):
case-insensitively match the game half against the directory and the name
half against that game's player set, returning the
canonically-capitalized pair, or not-found when either half fails. -/
def findPlayerSpec (games : List Game) (playerName gameName : String) : Option PlayerRef :=
  match games.find? (fun g => jsToLower (g.game.getD "") = jsToLower gameName) with
  | none => none
  | some gm =>
    match (gm.players.getD []).find? (fun n => jsToLower n = jsToLower playerName) with
    | none => none
    | some n => some { game := gm.game.getD "", name := n }

/-- The environment of `messageHandler`: the inbound frame the server
delivers in response to an awaited `send(event, payload)` carrying the
generated ref. -/
abbrev Oracle := String → ReqPayload → String → Msg

/-- The result of one `messageHandler` invocation.  JS state mutations
made before an exception persist, so the state is carried on every
branch: `done` is normal completion, `threw` an exception (caught by the
`conn.on('message')` wrapper), and `stuck` an `await` that never resolves
(or exhausted modelling fuel). -/
inductive HRes where
  | done (st : St)
  | threw (st : St) (e : String)
  | stuck (st : St)
  deriving Repr, DecidableEq

/-- The state carried by a handler result. -/
def HRes.state : HRes → St
  | .done st => st
  | .threw st _ => st
  | .stuck st => st

/-- Whether a handler invocation completed normally. -/
def HRes.isDone : HRes → Bool
  | .done _ => true
  | _ => false

/-- One invocation of `messageHandler(msg)`, parameterized by the handler
used for the frames that answer its awaited pulls (`recur`).  Follows the
source top to bottom: recover and delete `refs[msg.ref]`; on a truthy
`error` run the invalidation block, re-emit on `event:ref` (template
literal, so an absent ref prints as "undefined") and throw; otherwise
normalize `payload`/`ref` and run the event branches, finally re-emitting
the normalized message on `event:ref`. -/
def messageHandlerStep (oracle : Oracle) (recur : St → Msg → HRes) (st : St) (msg : Msg) :
    HRes :=
  let refPayload : Option ReqPayload :=
    if strTruthy msg.ref then
      (st.refs.find? (fun e => e.1 = msg.ref.getD "")).map Prod.snd
    else some {}
  let st := { st with
    refs := if strTruthy msg.ref then st.refs.filter (fun e => e.1 ≠ msg.ref.getD "")
            else st.refs }
  if strTruthy msg.error then
    match errorInvalidate st.games msg.event (msg.error.getD "") refPayload with
    | .error e => .threw st e
    | .ok games =>
      let st := { st with games := games,
                          waiters := emitKey st.waiters (mkKey msg.event (jsTemplate msg.ref)) msg }
      .threw st (msg.error.getD "")
  else
    let pl := msg.payload.getD {}
    let refS := msg.ref.getD ""
    let msgN : Msg := { msg with payload := some pl, ref := some refS }
    let finish : St → HRes := fun st =>
      .done { st with waiters := emitKey st.waiters (mkKey msg.event refS) msgN }
    let awaitSend : St → String → ReqPayload → Bool → (St → HRes) → HRes :=
      fun st event payload wantRef k =>
        let pr := sendRegister st event payload wantRef
        let resp := oracle event payload pr.2
        let st := (recur pr.1 resp).state
        match lookupWaiter st.waiters (mkKey event pr.2) with
        | some (Waiter.settled (Outcome.resolved _)) => k st
        | some (Waiter.settled (Outcome.rejected e)) => .threw st e
        | _ => .stuck st
    if msg.event = "heartbeat" then
      let st := scheduleReconnect 20 { st with alive := true }
      awaitSend st "heartbeat" { players := some st.players } false finish
    else if msg.event = "authenticate" then
      finish { st with alive := true }
    else if msg.event = "restart" then
      finish (scheduleReconnect 5 (close st))
    else if msg.event = "channels/broadcast" then
      finish { st with subscriberEvents := st.subscriberEvents ++ [(msg.event, pl)] }
    else if msg.event = "tells/receive" then
      finish { st with subscriberEvents := st.subscriberEvents ++ [(msg.event, pl)] }
    else if msg.event = "games/status" then
      finish { st with games := gamesStatusApply st.games pl }
    else if msg.event = "games/connect" then
      let go : St → HRes := fun st =>
        finish { st with games := updateFirst st.games (fun g => g.game = pl.game)
                            (fun g => { g with connected := some true }) }
      if (st.games.find? (fun g => g.game = pl.game)).isSome then go st
      else awaitSend st "games/status" { game := pl.game } true go
    else if msg.event = "games/disconnect" then
      let go : St → HRes := fun st =>
        finish { st with games := updateFirst st.games (fun g => g.game = pl.game)
                            (fun g => { g with connected := some false }) }
      if (st.games.find? (fun g => g.game = pl.game)).isSome then go st
      else awaitSend st "games/status" { game := pl.game } true go
    else if msg.event = "players/status" then
      finish { st with games := playersStatusApply st.games pl }
    else if msg.event = "players/sign-in" ∧ strTruthy pl.game then
      let go : St → HRes := fun st =>
        if (st.games.find? (fun g => g.game = pl.game)).isSome then
          finish { st with games := updateFirst st.games (fun g => g.game = pl.game)
                              (fun g => signInApply g pl.name) }
        else finish st
      if (st.games.find? (fun g => g.game = pl.game)).isSome then go st
      else
        awaitSend st "games/status" { game := pl.game } true (fun st =>
          awaitSend st "players/status" { game := pl.game } true go)
    else if msg.event = "players/sign-out" ∧ strTruthy pl.game then
      let go : St → HRes := fun st =>
        match st.games.find? (fun g => g.game = pl.game) with
        | none => finish st
        | some gm =>
          match gm.players with
          | none => .threw st jsTypeError
          | some ps =>
            if (match pl.name with | some n => ps.contains n | none => false) then
              finish { st with games := updateFirst st.games (fun g => g.game = pl.game)
                                  (fun g => { g with
                                      players := some (ps.filter (fun m => ¬ some m = pl.name)) }) }
            else finish st
      if (st.games.find? (fun g => g.game = pl.game)).isSome then go st
      else
        awaitSend st "games/status" { game := pl.game } true (fun st =>
          awaitSend st "players/status" { game := pl.game } true go)
    else
      finish st

/-- `messageHandler`, fuel-indexed: the frames answering awaited pulls
are themselves handled by `messageHandler` at smaller fuel. -/
def messageHandler (oracle : Oracle) : Nat → St → Msg → HRes
  | 0, st, _ => .stuck st
  | fuel + 1, st, msg => messageHandlerStep oracle (messageHandler oracle fuel) st msg

/-- Process a list of top-level inbound frames in arrival order; the
`conn.on('message')` wrapper swallows handler exceptions. -/
def processTrace (oracle : Oracle) (fuel : Nat) : St → List Msg → St
  | st, [] => st
  | st, m :: ms => processTrace oracle fuel ((messageHandler oracle fuel st m).state) ms

/-- An environment that answers every awaited pull with an unrelated
frame (used where the oracle is irrelevant). -/
def idleOracle : Oracle := fun _ _ _ => { event := "noop" }

/-- An environment that answers every status pull with a well-formed
status frame for the requested game, echoing the ref. -/
def statusOracle : Oracle := fun event payload refStr =>
  { event := event
    payload := some { game := payload.game, players := some ["Alice"] }
    ref := some refStr
    error := none }

/-- The key on which the handler re-emits a frame: error frames are
re-emitted before ref normalization through a template literal, other
frames after normalization. -/
def emitKeyOfMsg (m : Msg) : String :=
  if strTruthy m.error then mkKey m.event (jsTemplate m.ref)
  else mkKey m.event (m.ref.getD "")

/-- The message object a matching waiter receives: the raw frame for
error frames, the normalized frame otherwise. -/
def emittedMsgOf (m : Msg) : Msg :=
  if strTruthy m.error then m
  else { m with payload := some (m.payload.getD {}), ref := some (m.ref.getD "") }

/-- Frames whose handling performs no awaited pull: all error frames,
and non-error frames other than `heartbeat`, `games/connect`,
`games/disconnect` and sign-in/out deltas naming a game. -/
def framePullFree (m : Msg) : Bool :=
  strTruthy m.error ||
  ((m.event ≠ "heartbeat" : Bool) && (m.event ≠ "games/connect" : Bool) &&
   (m.event ≠ "games/disconnect" : Bool) &&
   (!(m.event = "players/sign-in" ∨ m.event = "players/sign-out" : Bool) ||
    !(strTruthy (m.payload.getD {}).game)))

/-- The invalidation block of the handler completes without throwing on
this frame in this state (error frames can throw a `TypeError` before
reaching the re-emit, leaving the matching waiter pending forever). -/
def errorStepSafe (st : St) (m : Msg) : Bool :=
  !(strTruthy m.error) ||
  (errorInvalidate st.games m.event (m.error.getD "")
    (if strTruthy m.ref then (st.refs.find? (fun e => e.1 = m.ref.getD "")).map Prod.snd
     else some {})).isOk

/-! ## Supporting lemmas -/

theorem string_data_append (a b : String) : (a ++ b).data = a.data ++ b.data := by
  cases a
  cases b
  rfl

theorem genRef_ne_empty (n : Nat) : genRef n ≠ "" := by
  intro h
  have h2 := congrArg String.data h
  rw [genRef, string_data_append] at h2
  have h3 : "ref-".data = ['r', 'e', 'f', '-'] := by decide
  rw [h3] at h2
  simp at h2

theorem genRef_ne_undefined (n : Nat) : genRef n ≠ "undefined" := by
  intro h
  have h2 := congrArg String.data h
  rw [genRef, string_data_append] at h2
  have h3 : "ref-".data = ['r', 'e', 'f', '-'] := by decide
  have h4 : "undefined".data = ['u', 'n', 'd', 'e', 'f', 'i', 'n', 'e', 'd'] := by decide
  rw [h3, h4] at h2
  simp at h2

theorem strTruthy_genRef (n : Nat) : strTruthy (some (genRef n)) = true := by
  simp [strTruthy, genRef_ne_empty]

theorem find?_append_of_none {α : Type} {p : α → Bool} {l₁ : List α} (l₂ : List α)
    (h : l₁.find? p = none) : (l₁ ++ l₂).find? p = l₂.find? p := by
  induction l₁ with
  | nil => rfl
  | cons a l ih =>
    cases hp : p a with
    | true => simp [List.find?_cons, hp] at h
    | false =>
      simp only [List.find?_cons, hp] at h
      simp [List.cons_append, List.find?_cons, hp, ih h]

theorem updateFirst_append_of_none {p : Game → Bool} {f : Game → Game} {l₁ : List Game}
    (l₂ : List Game) (h : l₁.find? p = none) :
    updateFirst (l₁ ++ l₂) p f = l₁ ++ updateFirst l₂ p f := by
  induction l₁ with
  | nil => rfl
  | cons a l ih =>
    cases hp : p a with
    | true => simp [List.find?_cons, hp] at h
    | false =>
      simp only [List.find?_cons, hp] at h
      rw [List.cons_append, updateFirst]
      simp [hp, ih h]

theorem updateFirst_of_none {p : Game → Bool} {f : Game → Game} {l : List Game}
    (h : l.find? p = none) : updateFirst l p f = l := by
  induction l with
  | nil => rfl
  | cons a l ih =>
    cases hp : p a with
    | true => simp [List.find?_cons, hp] at h
    | false =>
      simp only [List.find?_cons, hp] at h
      rw [updateFirst]
      simp [hp, ih h]

theorem find?_updateFirst {p : Game → Bool} {f : Game → Game} {l : List Game} {a : Game}
    (hpres : ∀ g, p (f g) = p g) (h : l.find? p = some a) :
    (updateFirst l p f).find? p = some (f a) := by
  induction l with
  | nil => simp [List.find?] at h
  | cons g l ih =>
    cases hp : p g with
    | true =>
      simp only [List.find?_cons, hp, Option.some.injEq] at h
      rw [updateFirst]
      simp only [hp, if_true]
      rw [List.find?_cons_of_pos _ (by rw [hpres]; exact hp)]
      rw [h]
    | false =>
      simp only [List.find?_cons, hp] at h
      rw [updateFirst]
      simp only [hp, Bool.false_eq_true, if_false]
      rw [List.find?_cons_of_neg _ (by rw [hp]; exact Bool.false_ne_true)]
      exact ih h

theorem updateFirst_fix {p : Game → Bool} {f : Game → Game} {l : List Game} {a : Game}
    (h : l.find? p = some a) (hfix : f a = a) : updateFirst l p f = l := by
  induction l with
  | nil => simp [List.find?] at h
  | cons g l ih =>
    cases hp : p g with
    | true =>
      simp only [List.find?_cons, hp, Option.some.injEq] at h
      rw [updateFirst]
      simp [hp, h ▸ hfix]
    | false =>
      simp only [List.find?_cons, hp] at h
      rw [updateFirst]
      simp [hp, ih h]

theorem mem_updateFirst {p : Game → Bool} {f : Game → Game} {l : List Game} {x : Game}
    (h : x ∈ updateFirst l p f) : x ∈ l ∨ ∃ y ∈ l, x = f y := by
  induction l with
  | nil => simp [updateFirst] at h
  | cons g l ih =>
    rw [updateFirst] at h
    cases hp : p g with
    | true =>
      simp only [hp, if_true, List.mem_cons] at h
      rcases h with h | h
      · exact Or.inr ⟨g, List.mem_cons_self g l, h⟩
      · exact Or.inl (List.mem_cons_of_mem _ h)
    | false =>
      simp only [hp, Bool.false_eq_true, if_false, List.mem_cons] at h
      rcases h with h | h
      · exact Or.inl (h ▸ List.mem_cons_self g l)
      · rcases ih h with h2 | ⟨y, hy, hxy⟩
        · exact Or.inl (List.mem_cons_of_mem _ h2)
        · exact Or.inr ⟨y, List.mem_cons_of_mem _ hy, hxy⟩

theorem lookupWaiter_setWaiter (ws : List (String × Waiter)) (k : String) :
    lookupWaiter (setWaiter ws k) k = some .pending := by
  simp [lookupWaiter, setWaiter, List.find?_cons]

theorem lookupWaiter_emitKey_ne {ws : List (String × Waiter)} {k k' : String} (m : Msg)
    (h : k ≠ k') : lookupWaiter (emitKey ws k' m) k = lookupWaiter ws k := by
  induction ws with
  | nil => rfl
  | cons e ws ih =>
    rw [emitKey, List.map_cons]
    by_cases he : e.1 = k' ∧ e.2 = Waiter.pending
    · simp only [he, and_self, if_true]
      rw [lookupWaiter, List.find?_cons_of_neg _ (by simp [Ne.symm h]),
        lookupWaiter, List.find?_cons_of_neg _ (by simp [he.1, Ne.symm h])]
      exact ih
    · simp only [he, if_false]
      by_cases hek : e.1 = k
      · rw [lookupWaiter, List.find?_cons_of_pos _ (by simp [hek]),
          lookupWaiter, List.find?_cons_of_pos _ (by simp [hek])]
      · rw [lookupWaiter, List.find?_cons_of_neg _ (by simp [hek]),
          lookupWaiter, List.find?_cons_of_neg _ (by simp [hek])]
        exact ih

theorem lookupWaiter_emitKey_pending {ws : List (String × Waiter)} {k : String} (m : Msg)
    (h : lookupWaiter ws k = some .pending) :
    lookupWaiter (emitKey ws k m) k = some (.settled (outcomeOf m)) := by
  induction ws with
  | nil => simp [lookupWaiter] at h
  | cons e ws ih =>
    rw [emitKey, List.map_cons]
    by_cases hek : e.1 = k
    · rw [lookupWaiter, List.find?_cons_of_pos _ (by simp [hek])] at h
      simp only [Option.map_some', Option.some.injEq] at h
      simp only [hek, h, and_self, if_true]
      rw [lookupWaiter, List.find?_cons_of_pos _ (by simp)]
      rfl
    · rw [lookupWaiter, List.find?_cons_of_neg _ (by simp [hek])] at h
      have hnp : ¬ (e.1 = k ∧ e.2 = Waiter.pending) := fun hc => hek hc.1
      simp only [hnp, if_false]
      rw [lookupWaiter, List.find?_cons_of_neg _ (by simp [hek])]
      exact ih h

theorem lookupWaiter_emitKey_settled {ws : List (String × Waiter)} {k k' : String} (m : Msg)
    {o : Outcome} (h : lookupWaiter ws k = some (.settled o)) :
    lookupWaiter (emitKey ws k' m) k = some (.settled o) := by
  induction ws with
  | nil => simp [lookupWaiter] at h
  | cons e ws ih =>
    rw [emitKey, List.map_cons]
    by_cases hek : e.1 = k
    · rw [lookupWaiter, List.find?_cons_of_pos _ (by simp [hek])] at h
      simp only [Option.map_some', Option.some.injEq] at h
      have hnp : ¬ (e.1 = k' ∧ e.2 = Waiter.pending) := fun hc => by
        rw [hc.2] at h
        exact Waiter.noConfusion h
      simp only [hnp, if_false]
      rw [lookupWaiter, List.find?_cons_of_pos _ (by simp [hek])]
      simp [h]
    · rw [lookupWaiter, List.find?_cons_of_neg _ (by simp [hek])] at h
      by_cases hc : e.1 = k' ∧ e.2 = Waiter.pending
      · have hkk : ¬ k' = k := fun he => hek (hc.1.trans he)
        simp only [hc, and_self, if_true]
        rw [lookupWaiter, List.find?_cons_of_neg _ (by simp [hkk])]
        exact ih h
      · simp only [hc, if_false]
        rw [lookupWaiter, List.find?_cons_of_neg _ (by simp [hek])]
        exact ih h

theorem findGameCI_wf {games : List Game} (t : String)
    (hwf : ∀ g ∈ games, g.game.isSome) :
    findGameCI games (some t) =
      .ok ((games.find? (fun g => jsToLower (g.game.getD "") = jsToLower t)).map
        (fun g => (g.game.getD "", g))) := by
  induction games with
  | nil => rfl
  | cons g gs ih =>
    obtain ⟨gn, hgn⟩ := Option.isSome_iff_exists.mp (hwf g (List.mem_cons_self g gs))
    by_cases hm : jsToLower gn = jsToLower t
    · rw [List.find?_cons_of_pos _ (by simp [hgn, hm])]
      simp [findGameCI, hgn, hm]
    · rw [List.find?_cons_of_neg _ (by simp [hgn, hm])]
      rw [← ih (fun x hx => hwf x (List.mem_cons_of_mem _ hx))]
      simp [findGameCI, hgn, hm]

theorem findPlayer_matches_spec (games : List Game) (pn gn rn : String)
    (hsplit : jsSplit '@' rn = [pn, gn])
    (hwf : ∀ g ∈ games, g.game.isSome ∧ g.players.isSome ∧ "" ∉ g.players.getD []) :
    findPlayer games rn = .ok (findPlayerSpec games pn gn) := by
  unfold findPlayer findPlayerSpec
  rw [hsplit]
  simp only [List.headD_cons, List.getElem?_cons_succ, List.getElem?_cons_zero]
  rw [findGameCI_wf gn (fun g hg => (hwf g hg).1)]
  cases hfg : games.find? (fun g => jsToLower (g.game.getD "") = jsToLower gn) with
  | none => rfl
  | some gm =>
    have hgm := hwf gm (List.mem_of_find?_eq_some hfg)
    obtain ⟨ps, hps⟩ := Option.isSome_iff_exists.mp hgm.2.1
    simp only [Option.map_some']
    have hpsD : gm.players.getD [] = ps := by rw [hps]; rfl
    rw [hpsD]
    simp only [findNameCI, hps]
    cases hfn : ps.find? (fun n => jsToLower n = jsToLower pn) with
    | none => rfl
    | some n =>
      have hne : ¬ n = "" := by
        intro he
        apply hgm.2.2
        rw [hpsD, ← he]
        exact List.mem_of_find?_eq_some hfn
      simp [hne]

theorem signInApply_game (g : Game) (nm : Option String) : (signInApply g nm).game = g.game := by
  cases nm <;> simp only [signInApply] <;> split <;> rfl

theorem signInApply_idem (g : Game) (n : String) :
    signInApply (signInApply g (some n)) (some n) = signInApply g (some n) := by
  by_cases hc : n ∈ g.players.getD []
  · simp [signInApply, hc]
  · simp [signInApply, hc]

theorem signInApply_mem (g : Game) (n : String) :
    n ∈ (signInApply g (some n)).players.getD [] := by
  by_cases hc : n ∈ g.players.getD [] <;> simp [signInApply, hc]

theorem framePullFree_facts (m : Msg) (he : strTruthy m.error = false) (h : framePullFree m = true) :
    m.event ≠ "heartbeat" ∧ m.event ≠ "games/connect" ∧ m.event ≠ "games/disconnect" ∧
    ((m.event = "players/sign-in" ∨ m.event = "players/sign-out") →
      strTruthy (m.payload.getD {}).game = false) := by
  simp [framePullFree, he] at h
  tauto

theorem step_pullFree_emit (oracle : Oracle) (recur : St → Msg → HRes) (st : St) (m : Msg)
    (h : framePullFree m = true) (hsafe : errorStepSafe st m = true) :
    (messageHandlerStep oracle recur st m).state.waiters =
      emitKey st.waiters (emitKeyOfMsg m) (emittedMsgOf m) := by
  by_cases he : strTruthy m.error = true
  · rw [errorStepSafe, he] at hsafe
    simp only [Bool.not_true, Bool.false_or] at hsafe
    cases hinv : errorInvalidate st.games m.event (m.error.getD "")
        (if strTruthy m.ref then (st.refs.find? (fun e => e.1 = m.ref.getD "")).map Prod.snd
         else some {}) with
    | error e =>
      rw [hinv] at hsafe
      simp [Except.isOk, Except.toBool] at hsafe
    | ok gs =>
      simp [messageHandlerStep, he, hinv, emitKeyOfMsg, emittedMsgOf, HRes.state, close, scheduleReconnect]
  · have he' : strTruthy m.error = false := by simpa using he
    obtain ⟨hh, hgc, hgd, hsg⟩ := framePullFree_facts m he' h
    by_cases h1 : m.event = "authenticate"
    · simp [messageHandlerStep, he', h1, emitKeyOfMsg, emittedMsgOf, HRes.state, close, scheduleReconnect]
    by_cases h2 : m.event = "restart"
    · simp [messageHandlerStep, he', h2, emitKeyOfMsg, emittedMsgOf, HRes.state, close, scheduleReconnect]
    by_cases h3 : m.event = "channels/broadcast"
    · simp [messageHandlerStep, he', h3, emitKeyOfMsg, emittedMsgOf, HRes.state, close, scheduleReconnect]
    by_cases h4 : m.event = "tells/receive"
    · simp [messageHandlerStep, he', h4, emitKeyOfMsg, emittedMsgOf, HRes.state, close, scheduleReconnect]
    by_cases h5 : m.event = "games/status"
    · simp [messageHandlerStep, he', h5, emitKeyOfMsg, emittedMsgOf, HRes.state, close, scheduleReconnect]
    by_cases h6 : m.event = "players/status"
    · simp [messageHandlerStep, he', h6, emitKeyOfMsg, emittedMsgOf, HRes.state, close, scheduleReconnect]
    by_cases h7 : m.event = "players/sign-in"
    · have hplf := hsg (Or.inl h7)
      simp [messageHandlerStep, he', h7, hplf, emitKeyOfMsg, emittedMsgOf, HRes.state, close, scheduleReconnect]
    by_cases h8 : m.event = "players/sign-out"
    · have hplf := hsg (Or.inr h8)
      simp [messageHandlerStep, he', h8, hplf, emitKeyOfMsg, emittedMsgOf, HRes.state, close, scheduleReconnect]
    simp [messageHandlerStep, he', hh, hgc, hgd, h1, h2, h3, h4, h5, h6, h7, h8,
      emitKeyOfMsg, emittedMsgOf, HRes.state, close, scheduleReconnect]

theorem step_pullFree_waiters (oracle : Oracle) (recur : St → Msg → HRes) (st : St) (m : Msg)
    (h : framePullFree m = true) :
    (messageHandlerStep oracle recur st m).state.waiters =
        emitKey st.waiters (emitKeyOfMsg m) (emittedMsgOf m) ∨
      (messageHandlerStep oracle recur st m).state.waiters = st.waiters := by
  by_cases he : strTruthy m.error = true
  · cases hinv : errorInvalidate st.games m.event (m.error.getD "")
        (if strTruthy m.ref then (st.refs.find? (fun e => e.1 = m.ref.getD "")).map Prod.snd
         else some {}) with
    | error e =>
      right
      simp [messageHandlerStep, he, hinv, HRes.state]
    | ok gs =>
      left
      simp [messageHandlerStep, he, hinv, emitKeyOfMsg, emittedMsgOf, HRes.state]
  · left
    apply step_pullFree_emit oracle recur st m h
    simp [errorStepSafe, he]

theorem step_pullFree_refs (oracle : Oracle) (recur : St → Msg → HRes) (st : St) (m : Msg)
    (h : framePullFree m = true) :
    (messageHandlerStep oracle recur st m).state.refs =
      (if strTruthy m.ref then st.refs.filter (fun e => e.1 ≠ m.ref.getD "") else st.refs) := by
  by_cases he : strTruthy m.error = true
  · cases hinv : errorInvalidate st.games m.event (m.error.getD "")
        (if strTruthy m.ref then (st.refs.find? (fun e => e.1 = m.ref.getD "")).map Prod.snd
         else some {}) with
    | error e => simp [messageHandlerStep, he, hinv, HRes.state]
    | ok gs => simp [messageHandlerStep, he, hinv, HRes.state]
  · have he' : strTruthy m.error = false := by simpa using he
    obtain ⟨hh, hgc, hgd, hsg⟩ := framePullFree_facts m he' h
    by_cases h1 : m.event = "authenticate"
    · simp [messageHandlerStep, he', h1, HRes.state, close, scheduleReconnect]
    by_cases h2 : m.event = "restart"
    · simp [messageHandlerStep, he', h2, HRes.state, close, scheduleReconnect]
    by_cases h3 : m.event = "channels/broadcast"
    · simp [messageHandlerStep, he', h3, HRes.state, close, scheduleReconnect]
    by_cases h4 : m.event = "tells/receive"
    · simp [messageHandlerStep, he', h4, HRes.state, close, scheduleReconnect]
    by_cases h5 : m.event = "games/status"
    · simp [messageHandlerStep, he', h5, HRes.state, close, scheduleReconnect]
    by_cases h6 : m.event = "players/status"
    · simp [messageHandlerStep, he', h6, HRes.state, close, scheduleReconnect]
    by_cases h7 : m.event = "players/sign-in"
    · have hplf := hsg (Or.inl h7)
      simp [messageHandlerStep, he', h7, hplf, HRes.state, close, scheduleReconnect]
    by_cases h8 : m.event = "players/sign-out"
    · have hplf := hsg (Or.inr h8)
      simp [messageHandlerStep, he', h8, hplf, HRes.state, close, scheduleReconnect]
    simp [messageHandlerStep, he', hh, hgc, hgd, h1, h2, h3, h4, h5, h6, h7, h8,
      HRes.state, close, scheduleReconnect]

theorem names_none_updateFirst {l : List Game} {p : Game → Bool} {f : Game → Game}
    (hn : ∀ g ∈ l, g.name = none) (hf : ∀ g, (f g).name = g.name) :
    ∀ g ∈ updateFirst l p f, g.name = none := by
  intro g hg
  rcases mem_updateFirst hg with h2 | ⟨y, hy, rfl⟩
  · exact hn g h2
  · rw [hf]
    exact hn y hy

theorem gamesStatusApply_names {games : List Game} {pl : InPayload}
    (hn : ∀ g ∈ games, g.name = none) (hp : pl.name = none) :
    ∀ g ∈ gamesStatusApply games pl, g.name = none := by
  unfold gamesStatusApply
  by_cases hf : (games.find? (fun g => g.game = pl.game)).isSome = true
  · simp only [hf, if_true]
    exact names_none_updateFirst hn (fun g => by simp [mergePayload, hp])
  · simp only [hf, Bool.false_eq_true, if_false]
    intro g hg
    rcases List.mem_append.mp hg with h2 | h2
    · exact hn g h2
    · simp only [List.mem_singleton] at h2
      rw [h2, hp]

theorem playersStatusApply_names {games : List Game} {pl : InPayload}
    (hn : ∀ g ∈ games, g.name = none) (hp : pl.name = none) :
    ∀ g ∈ playersStatusApply games pl, g.name = none := by
  unfold playersStatusApply
  by_cases hf : (games.find? (fun g => g.game = pl.game)).isSome = true
  · simp only [hf, if_true]
    exact names_none_updateFirst hn (fun g => by simp [mergePayload, hp])
  · simp only [hf, Bool.false_eq_true, if_false]
    intro g hg
    rcases List.mem_append.mp hg with h2 | h2
    · exact hn g h2
    · simp only [List.mem_singleton] at h2
      rw [h2, hp]

theorem errorInvalidate_names {games : List Game} {e err : String} {p? : Option ReqPayload}
    {gs : List Game} (hn : ∀ g ∈ games, g.name = none)
    (hok : errorInvalidate games e err p? = .ok gs) :
    ∀ g ∈ gs, g.name = none := by
  unfold errorInvalidate at hok
  simp only [bind, Except.bind, pure, Except.pure] at hok
  by_cases h1 : e = "tells/send" ∧ err = "game offline" <;>
    by_cases h2 : e = "games/status" ∧ err = "unknown game" <;>
    by_cases h3 : e = "tells/send" ∧ err = "player offline"
  · exact absurd (h1.2.symm.trans h3.2) (by decide)
  · exact absurd (h1.1.symm.trans h2.1) (by decide)
  · exact absurd (h1.2.symm.trans h3.2) (by decide)
  · rcases p? with _ | p
    · simp [h1, h2, h3] at hok
    · simp [h1, h2, h3] at hok
      subst hok
      repeat' first
        | exact hn
        | apply names_none_updateFirst
        | (intro g; rfl)
  · exact absurd (h2.2.symm.trans h3.2) (by decide)
  · rcases p? with _ | p
    · simp [h1, h2, h3] at hok
    · simp [h1, h2, h3] at hok
      subst hok
      repeat' first
        | exact hn
        | apply names_none_updateFirst
        | (intro g; rfl)
  · rcases p? with _ | p
    · simp [h1, h2, h3] at hok
    · simp [h1, h2, h3] at hok
      cases hf : games.find? (fun g => g.name = p.to_game) with
      | none =>
        simp only [hf] at hok
        injection hok with h4
        subst h4
        exact hn
      | some gm =>
        simp only [hf] at hok
        cases hgp : gm.players with
        | none => simp [hgp] at hok
        | some ps =>
          simp only [hgp] at hok
          cases hf2 : ps.find? (fun n => some n = p.to_name) with
          | none =>
            simp only [hf2] at hok
            injection hok with h4
            subst h4
            exact hn
          | some n =>
            simp only [hf2] at hok
            by_cases hne : n = ""
            · rw [if_pos hne] at hok
              injection hok with h4
              subst h4
              exact hn
            · rw [if_neg hne] at hok
              injection hok with h4
              subst h4
              repeat' first
                | exact hn
                | apply names_none_updateFirst
                | (intro g; rfl)
  · simp [h1, h2, h3] at hok
    subst hok
    exact hn

theorem step_names_none (oracle : Oracle) (recur : St → Msg → HRes) (st : St) (m : Msg)
    (h : framePullFree m = true)
    (hn : ∀ g ∈ st.games, g.name = none)
    (hpl : (m.payload.getD {}).name = none) :
    ∀ g ∈ (messageHandlerStep oracle recur st m).state.games, g.name = none := by
  by_cases he : strTruthy m.error = true
  · cases hinv : errorInvalidate st.games m.event (m.error.getD "")
        (if strTruthy m.ref then (st.refs.find? (fun e => e.1 = m.ref.getD "")).map Prod.snd
         else some {}) with
    | error e =>
      have hg : (messageHandlerStep oracle recur st m).state.games = st.games := by
        simp [messageHandlerStep, he, hinv, HRes.state]
      rw [hg]
      exact hn
    | ok gs =>
      have hg : (messageHandlerStep oracle recur st m).state.games = gs := by
        simp [messageHandlerStep, he, hinv, HRes.state]
      rw [hg]
      exact errorInvalidate_names hn hinv
  · have he' : strTruthy m.error = false := by simpa using he
    obtain ⟨hh, hgc, hgd, hsg⟩ := framePullFree_facts m he' h
    by_cases h1 : m.event = "authenticate"
    · have hg : (messageHandlerStep oracle recur st m).state.games = st.games := by
        simp [messageHandlerStep, he', h1, HRes.state, close, scheduleReconnect]
      rw [hg]; exact hn
    by_cases h2 : m.event = "restart"
    · have hg : (messageHandlerStep oracle recur st m).state.games = st.games := by
        simp [messageHandlerStep, he', h2, HRes.state, close, scheduleReconnect]
      rw [hg]; exact hn
    by_cases h3 : m.event = "channels/broadcast"
    · have hg : (messageHandlerStep oracle recur st m).state.games = st.games := by
        simp [messageHandlerStep, he', h3, HRes.state, close, scheduleReconnect]
      rw [hg]; exact hn
    by_cases h4 : m.event = "tells/receive"
    · have hg : (messageHandlerStep oracle recur st m).state.games = st.games := by
        simp [messageHandlerStep, he', h4, HRes.state, close, scheduleReconnect]
      rw [hg]; exact hn
    by_cases h5 : m.event = "games/status"
    · have hg : (messageHandlerStep oracle recur st m).state.games =
          gamesStatusApply st.games (m.payload.getD {}) := by
        simp [messageHandlerStep, he', h5, HRes.state]
      rw [hg]
      exact gamesStatusApply_names hn hpl
    by_cases h6 : m.event = "players/status"
    · have hg : (messageHandlerStep oracle recur st m).state.games =
          playersStatusApply st.games (m.payload.getD {}) := by
        simp [messageHandlerStep, he', h6, HRes.state]
      rw [hg]
      exact playersStatusApply_names hn hpl
    by_cases h7 : m.event = "players/sign-in"
    · have hplf := hsg (Or.inl h7)
      have hg : (messageHandlerStep oracle recur st m).state.games = st.games := by
        simp [messageHandlerStep, he', h7, hplf, HRes.state]
      rw [hg]; exact hn
    by_cases h8 : m.event = "players/sign-out"
    · have hplf := hsg (Or.inr h8)
      have hg : (messageHandlerStep oracle recur st m).state.games = st.games := by
        simp [messageHandlerStep, he', h8, hplf, HRes.state]
      rw [hg]; exact hn
    have hg : (messageHandlerStep oracle recur st m).state.games = st.games := by
      simp [messageHandlerStep, he', hh, hgc, hgd, h1, h2, h3, h4, h5, h6, h7, h8, HRes.state]
    rw [hg]; exact hn

theorem strTruthy_eq_some {o : Option String} (h : strTruthy o = true) : o = some (o.getD "") := by
  cases o with
  | none => simp [strTruthy] at h
  | some s => rfl

theorem find?_filter_ne {l : List (String × ReqPayload)} {q r : String} (h : q ≠ r) :
    (l.filter (fun e => e.1 ≠ q)).find? (fun e => e.1 = r) = l.find? (fun e => e.1 = r) := by
  induction l with
  | nil => rfl
  | cons a l ih =>
    by_cases ha : a.1 = q
    · rw [List.filter_cons_of_neg (by simp [ha])]
      rw [List.find?_cons_of_neg _ (by simp [ha, h])]
      exact ih
    · rw [List.filter_cons_of_pos (by simp [ha])]
      by_cases har : a.1 = r
      · rw [List.find?_cons_of_pos _ (by simp [har]), List.find?_cons_of_pos _ (by simp [har])]
      · rw [List.find?_cons_of_neg _ (by simp [har]), List.find?_cons_of_neg _ (by simp [har])]
        exact ih

theorem processTrace_append (oracle : Oracle) (fuel : Nat) (l1 l2 : List Msg) :
    ∀ st : St, processTrace oracle fuel st (l1 ++ l2) =
      processTrace oracle fuel (processTrace oracle fuel st l1) l2 := by
  induction l1 with
  | nil => intro st; rfl
  | cons m l ih =>
    intro st
    rw [List.cons_append, processTrace, processTrace]
    exact ih _

theorem trace_keeps_pending (oracle : Oracle) (fuel : Nat) (k : String) (ms : List Msg) :
    ∀ st : St, lookupWaiter st.waiters k = some .pending →
    (∀ x ∈ ms, framePullFree x = true ∧ emitKeyOfMsg x ≠ k) →
    lookupWaiter (processTrace oracle (fuel + 1) st ms).waiters k = some .pending := by
  induction ms with
  | nil => intro st hp _; exact hp
  | cons m ms ih =>
    intro st hp hms
    rw [processTrace]
    apply ih
    · rcases step_pullFree_waiters oracle (messageHandler oracle fuel) st m
          (hms m (List.mem_cons_self m ms)).1 with h2 | h2
      · show lookupWaiter (messageHandlerStep oracle (messageHandler oracle fuel) st m).state.waiters k
          = some Waiter.pending
        rw [h2, lookupWaiter_emitKey_ne _ (hms m (List.mem_cons_self m ms)).2.symm]
        exact hp
      · show lookupWaiter (messageHandlerStep oracle (messageHandler oracle fuel) st m).state.waiters k
          = some Waiter.pending
        rw [h2]
        exact hp
    · exact fun x hx => hms x (List.mem_cons_of_mem _ hx)

theorem trace_keeps_refs (oracle : Oracle) (fuel : Nat) (r : String) (pay : ReqPayload)
    (ms : List Msg) :
    ∀ st : St, st.refs.find? (fun e => e.1 = r) = some (r, pay) →
    (∀ x ∈ ms, framePullFree x = true ∧ x.ref ≠ some r) →
    (processTrace oracle (fuel + 1) st ms).refs.find? (fun e => e.1 = r) = some (r, pay) := by
  induction ms with
  | nil => intro st hp _; exact hp
  | cons m ms ih =>
    intro st hp hms
    rw [processTrace]
    apply ih
    · show (messageHandlerStep oracle (messageHandler oracle fuel) st m).state.refs.find?
        (fun e => e.1 = r) = some (r, pay)
      rw [step_pullFree_refs oracle (messageHandler oracle fuel) st m
        (hms m (List.mem_cons_self m ms)).1]
      by_cases htr : strTruthy m.ref = true
      · rw [if_pos htr]
        have hqr : m.ref.getD "" ≠ r := by
          intro hq
          exact (hms m (List.mem_cons_self m ms)).2 (by rw [← hq]; exact strTruthy_eq_some htr)
        rw [find?_filter_ne hqr]
        exact hp
      · rw [if_neg htr]
        exact hp
    · exact fun x hx => hms x (List.mem_cons_of_mem _ hx)

theorem trace_keeps_settled (oracle : Oracle) (fuel : Nat) (k : String) (o : Outcome)
    (ms : List Msg) :
    ∀ st : St, lookupWaiter st.waiters k = some (.settled o) →
    (∀ x ∈ ms, framePullFree x = true) →
    lookupWaiter (processTrace oracle (fuel + 1) st ms).waiters k = some (.settled o) := by
  induction ms with
  | nil => intro st hp _; exact hp
  | cons m ms ih =>
    intro st hp hms
    rw [processTrace]
    apply ih
    · rcases step_pullFree_waiters oracle (messageHandler oracle fuel) st m
          (hms m (List.mem_cons_self m ms)) with h2 | h2
      · show lookupWaiter (messageHandlerStep oracle (messageHandler oracle fuel) st m).state.waiters k
          = some (Waiter.settled o)
        rw [h2]
        exact lookupWaiter_emitKey_settled _ hp
      · show lookupWaiter (messageHandlerStep oracle (messageHandler oracle fuel) st m).state.waiters k
          = some (Waiter.settled o)
        rw [h2]
        exact hp
    · exact fun x hx => hms x (List.mem_cons_of_mem _ hx)

theorem trace_keeps_names (oracle : Oracle) (fuel : Nat) (ms : List Msg) :
    ∀ st : St, (∀ g ∈ st.games, g.name = none) →
    (∀ x ∈ ms, framePullFree x = true ∧ (x.payload.getD {}).name = none) →
    ∀ g ∈ (processTrace oracle (fuel + 1) st ms).games, g.name = none := by
  induction ms with
  | nil => intro st hp _; exact hp
  | cons m ms ih =>
    intro st hp hms
    rw [processTrace]
    apply ih
    · exact step_names_none oracle (messageHandler oracle fuel) st m
        (hms m (List.mem_cons_self m ms)).1 hp (hms m (List.mem_cons_self m ms)).2
    · exact fun x hx => hms x (List.mem_cons_of_mem _ hx)

theorem errorInvalidate_isOk {games : List Game} {e err : String} (p : ReqPayload)
    (hb3 : e = "tells/send" → err = "player offline" →
      games.find? (fun g => g.name = p.to_game) = none) :
    (errorInvalidate games e err (some p)).isOk = true := by
  unfold errorInvalidate
  simp only [bind, Except.bind, pure, Except.pure]
  by_cases h1 : e = "tells/send" ∧ err = "game offline" <;>
    by_cases h2 : e = "games/status" ∧ err = "unknown game" <;>
    by_cases h3 : e = "tells/send" ∧ err = "player offline"
  · exact absurd (h1.2.symm.trans h3.2) (by decide)
  · exact absurd (h1.1.symm.trans h2.1) (by decide)
  · exact absurd (h1.2.symm.trans h3.2) (by decide)
  · simp [h1, h2, h3, Except.isOk, Except.toBool]
  · exact absurd (h2.2.symm.trans h3.2) (by decide)
  · simp [h1, h2, h3, Except.isOk, Except.toBool]
  · have hf := hb3 h3.1 h3.2
    simp [h1, h2, h3, hf, Except.isOk, Except.toBool]
  · simp [h1, h2, h3, Except.isOk, Except.toBool]

theorem outcomeOf_emitted (m : Msg) :
    outcomeOf (emittedMsgOf m) =
      if strTruthy m.error then .rejected (m.error.getD "") else .resolved (emittedMsgOf m) := by
  by_cases he : strTruthy m.error = true
  · simp [outcomeOf, emittedMsgOf, he]
  · simp [outcomeOf, emittedMsgOf, he]

/-! ## Claims -/

/-- C7: `findPlayer` matches the game half case-insensitively against the
cached directory and the name half case-insensitively against that game's
player set, returning the canonically-capitalized pair when both match
and not-found when either half fails (for identifiers splitting as
name-at-game, over well-formed directory records); in particular
`findPlayer "alice@AGORA"` finds player "Alice" of cached game "Agora",
and `findPlayer "bob@Nowhere"` is not-found when "Nowhere" is absent. -/
theorem findPlayer_case_insensitive_canonical :
    (∀ (games : List Game) (pn gn rn : String),
        jsSplit '@' rn = [pn, gn] →
        (∀ g ∈ games, g.game.isSome ∧ g.players.isSome ∧ "" ∉ g.players.getD []) →
        findPlayer games rn = .ok (findPlayerSpec games pn gn)) ∧
    findPlayer [{ game := some "Agora", connected := some true, players := some ["Alice"] }]
        "alice@AGORA" = .ok (some { game := "Agora", name := "Alice" }) ∧
    findPlayer [{ game := some "Agora", connected := some true, players := some ["Alice"] }]
        "bob@Nowhere" = .ok none :=
  ⟨findPlayer_matches_spec, by decide, by decide⟩

/-- C7 witness: the general direction applied at a concrete directory and
identifier. -/
theorem findPlayer_case_insensitive_canonical_witness :
    findPlayer [{ game := some "Agora", connected := some true, players := some ["Alice"] }]
        "alice@AGORA" =
      .ok (findPlayerSpec
        [{ game := some "Agora", connected := some true, players := some ["Alice"] }]
        "alice" "AGORA") :=
  findPlayer_case_insensitive_canonical.1 _ "alice" "AGORA" "alice@AGORA"
    (by decide) (by decide)

/-- C10 counterexample: with no separator in the identifier but an empty
cached directory, `findPlayer` returns the not-found signal without
throwing (the `games.find` callback, which is what dereferences the
undefined game half, never runs on an empty array), contradicting the
claim that it throws a TypeError instead of returning not-found. -/
theorem findPlayer_no_separator_empty_directory :
    findPlayer [] "alice" = .ok none := by decide

/-- C10 (amended): if the identifier contains no separator (its split is
the singleton of itself) and the cached directory is non-empty, then
`findPlayer` throws a TypeError (from `toLowerCase` on the undefined game
half) instead of returning the not-found signal. -/
theorem findPlayer_no_separator_throws (games : List Game) (rn : String)
    (hne : games ≠ []) (hsplit : jsSplit '@' rn = [rn]) :
    findPlayer games rn = .error jsTypeError := by
  cases games with
  | nil => exact absurd rfl hne
  | cons g gs =>
    unfold findPlayer
    rw [hsplit]
    simp only [List.getElem?_cons_succ, List.getElem?_nil]
    cases hg : g.game <;> simp [findGameCI, hg]

/-- C10 witness: the amended theorem at a one-record directory. -/
theorem findPlayer_no_separator_throws_witness :
    findPlayer [{ game := some "Agora", players := some [] }] "alice" = .error jsTypeError :=
  findPlayer_no_separator_throws [{ game := some "Agora", players := some [] }] "alice"
    (by decide) (by decide)

/-- C4 counterexample: with both credentials absent, the synchronous
actions of `connect()` open the transport first and throw the
missing-credential error only afterwards, contradicting the claim that
the failure happens before any connection attempt (no transport opened). -/
theorem connect_opens_transport_before_credential_check :
    connectSyncActions false {} "wss://gossip.haus/socket" =
      [.openTransport "wss://gossip.haus/socket", .throwErr "client_id is required"] := by
  decide

/-- C4 (amended): `connect()` fails with a missing-credential error when
`client_id` or `client_secret` is falsy, but only after constructing the
WebSocket transport: the connection attempt is initiated before the
credential check. -/
theorem connect_missing_credentials (cfg : Config) (url : String) :
    (¬ strTruthy cfg.client_id = true →
      connectSyncActions false cfg url =
        [.openTransport url, .throwErr "client_id is required"]) ∧
    (strTruthy cfg.client_id = true → ¬ strTruthy cfg.client_secret = true →
      connectSyncActions false cfg url =
        [.openTransport url, .throwErr "client_secret is required"]) := by
  refine ⟨fun h => ?_, fun h1 h2 => ?_⟩
  · simp [connectSyncActions, h]
  · simp [connectSyncActions, h1, h2]

/-- C4 witness: the amended theorem at an empty configuration. -/
theorem connect_missing_credentials_witness :
    connectSyncActions false { client_id := some "id" } "wss://gossip.haus/socket" =
      [.openTransport "wss://gossip.haus/socket", .throwErr "client_secret is required"] :=
  (connect_missing_credentials { client_id := some "id" } "wss://gossip.haus/socket").2
    (by decide) (by decide)

/-- C5 counterexample: with a reconnect timer scheduled, `close()` leaves
it scheduled, contradicting the claim that `close()` cancels any pending
reconnect/watchdog timers. -/
theorem close_keeps_reconnect_timer :
    (close { initialSt with reconnectTimer := .scheduled 5000 }).reconnectTimer =
      .scheduled 5000 := by decide

/-- C5 (amended): `close()` marks the session dead and is idempotent
(`close` after `close` throws nothing, being total, and leaves the same
state), but it does not cancel a pending reconnect timer. -/
theorem close_marks_dead_idempotent (st : St) :
    (close st).alive = false ∧ close (close st) = close st ∧
    (close st).reconnectTimer = st.reconnectTimer :=
  ⟨rfl, rfl, rfl⟩

/-- C8: the configured `reconnectIntervalTime` is stored into the
`reconnectInterval` timer-handle variable by `init`, and the reconnect
scheduled after a transport close uses the hard-coded 5-second delay
regardless of it: with `reconnectIntervalTime := 10000`, the delay after
a transport close is 5000 ms, not 10000 ms. -/
theorem reconnect_delay_ignores_configured_interval :
    (init { reconnectIntervalTime := some 10000 } initialSt).reconnectTimer =
      .rawConfig 10000 ∧
    (onConnClose (init { reconnectIntervalTime := some 10000 } initialSt)).reconnectTimer =
      .scheduled 5000 := by
  decide

/-- C3: evaluating the handler at the failing inputs.  With game "Agora"
cached (player "Alice", connected) and the original request payloads
cached under the response refs: a `tells/send` response with error
"player offline" leaves Alice in the roster (the lookup uses a `name`
field game records never have), and a `games/status` response with error
"unknown game" leaves the game connected (the lookup uses a `to_game`
field that a `games/status` request payload never has); only the
`tells/send` "game offline" branch marks the game disconnected. -/
theorem error_invalidation_dead_branches :
    (messageHandler idleOracle 1
        { initialSt with
            games := [{ game := some "Agora", connected := some true, players := some ["Alice"] }]
            refs := [("r1", { to_game := some "Agora", to_name := some "Alice" })] }
        { event := "tells/send", ref := some "r1", error := some "player offline" }).state.games =
      [{ game := some "Agora", connected := some true, players := some ["Alice"] }] ∧
    (messageHandler idleOracle 1
        { initialSt with
            games := [{ game := some "Agora", connected := some true, players := some ["Alice"] }]
            refs := [("r2", { game := some "Agora" })] }
        { event := "games/status", ref := some "r2", error := some "unknown game" }).state.games =
      [{ game := some "Agora", connected := some true, players := some ["Alice"] }] ∧
    (messageHandler idleOracle 1
        { initialSt with
            games := [{ game := some "Agora", connected := some true, players := some ["Alice"] }]
            refs := [("r1", { to_game := some "Agora", to_name := some "Alice" })] }
        { event := "tells/send", ref := some "r1", error := some "game offline" }).state.games =
      [{ game := some "Agora", connected := some false, players := some ["Alice"] }] := by
  decide

/-- C6: applying the same `players/sign-in` delta twice to a cache that
has the game leaves the game directory unchanged after the first
application (sign-in is a no-op when the player is already present), and
a `players/sign-out` delta for a player absent from the game's player
set is a no-op on the directory. -/
theorem sign_deltas_idempotent
    (oracle : Oracle) (fuel : Nat) (st : St) (g₀ n : String) (gm : Game)
    (hg : g₀ ≠ "")
    (hfound : st.games.find? (fun g => g.game = some g₀) = some gm) :
    ((messageHandler oracle (fuel + 1)
        ((messageHandler oracle (fuel + 1) st
            { event := "players/sign-in", payload := some { game := some g₀, name := some n } }).state)
        { event := "players/sign-in", payload := some { game := some g₀, name := some n } }).state.games
      = (messageHandler oracle (fuel + 1) st
            { event := "players/sign-in", payload := some { game := some g₀, name := some n } }).state.games) ∧
    (∀ ps : List String, gm.players = some ps → n ∉ ps →
      (messageHandler oracle (fuel + 1) st
          { event := "players/sign-out", payload := some { game := some g₀, name := some n } }).state.games
        = st.games) := by
  constructor
  · have h1 : (messageHandler oracle (fuel + 1) st
        { event := "players/sign-in", payload := some { game := some g₀, name := some n } }).state.games
        = updateFirst st.games (fun g => g.game = some g₀) (fun g => signInApply g (some n)) := by
      simp [messageHandler, messageHandlerStep, strTruthy, hg, hfound, HRes.state]
    have hfound2 : (messageHandler oracle (fuel + 1) st
        { event := "players/sign-in", payload := some { game := some g₀, name := some n } }).state.games.find?
          (fun g => g.game = some g₀) = some (signInApply gm (some n)) := by
      rw [h1]
      exact find?_updateFirst (fun g => by simp [signInApply_game]) hfound
    generalize hG : (messageHandler oracle (fuel + 1) st
        { event := "players/sign-in", payload := some { game := some g₀, name := some n } }).state
        = st1 at hfound2 ⊢
    have h2 : (messageHandler oracle (fuel + 1) st1
        { event := "players/sign-in", payload := some { game := some g₀, name := some n } }).state.games
        = updateFirst st1.games (fun g => g.game = some g₀) (fun g => signInApply g (some n)) := by
      simp [messageHandler, messageHandlerStep, strTruthy, hg, hfound2, HRes.state]
    rw [h2]
    exact updateFirst_fix hfound2 (signInApply_idem gm n)
  · intro ps hp hn
    simp [messageHandler, messageHandlerStep, strTruthy, hg, hfound, hp, hn, HRes.state]

/-- C6 witness: the theorem at a one-game directory, for sign-in of a new
player "Bob" applied twice and sign-out of the absent player "Bob". -/
theorem sign_deltas_idempotent_witness :
    ((messageHandler idleOracle 1
        ((messageHandler idleOracle 1
            { initialSt with games := [{ game := some "Agora", players := some ["Alice"] }] }
            { event := "players/sign-in",
              payload := some { game := some "Agora", name := some "Bob" } }).state)
        { event := "players/sign-in",
          payload := some { game := some "Agora", name := some "Bob" } }).state.games
      = (messageHandler idleOracle 1
            { initialSt with games := [{ game := some "Agora", players := some ["Alice"] }] }
            { event := "players/sign-in",
              payload := some { game := some "Agora", name := some "Bob" } }).state.games) ∧
    (messageHandler idleOracle 1
        { initialSt with games := [{ game := some "Agora", players := some ["Alice"] }] }
        { event := "players/sign-out",
          payload := some { game := some "Agora", name := some "Bob" } }).state.games
      = [{ game := some "Agora", players := some ["Alice"] }] :=
  ⟨(sign_deltas_idempotent idleOracle 0
      { initialSt with games := [{ game := some "Agora", players := some ["Alice"] }] }
      "Agora" "Bob" { game := some "Agora", players := some ["Alice"] }
      (by decide) (by decide)).1,
   (sign_deltas_idempotent idleOracle 0
      { initialSt with games := [{ game := some "Agora", players := some ["Alice"] }] }
      "Agora" "Bob" { game := some "Agora", players := some ["Alice"] }
      (by decide) (by decide)).2 ["Alice"] rfl (by decide)⟩

/-- C1: a `players/sign-in` delta naming a game absent from the cached
directory makes the handler transmit the pull requests `games/status`
and `players/status` for that game and process their responses (supplied
by the environment, echoing the generated refs) before applying the
delta; the handler completes, its transmit log grows by exactly the two
pulls, the directory gains the pulled record with the delta applied, and
the signed-in player is a member of that game's player set. -/
theorem signIn_unknown_game_pulls_then_applies
    (oracle : Oracle) (fuel : Nat) (st : St) (g₀ n : String) (pl₁ pl₂ : InPayload)
    (hg : g₀ ≠ "")
    (habsent : st.games.find? (fun g => g.game = some g₀) = none)
    (hor1 : oracle "games/status" { game := some g₀ } (genRef st.nextRef) =
      { event := "games/status", payload := some pl₁, ref := some (genRef st.nextRef),
        error := none })
    (hor2 : oracle "players/status" { game := some g₀ } (genRef (st.nextRef + 1)) =
      { event := "players/status", payload := some pl₂, ref := some (genRef (st.nextRef + 1)),
        error := none })
    (hpl₁ : pl₁.game = some g₀) (hpl₂ : pl₂.game = some g₀) :
    (messageHandler oracle (fuel + 2) st
        { event := "players/sign-in",
          payload := some { game := some g₀, name := some n } }).isDone = true ∧
    (messageHandler oracle (fuel + 2) st
        { event := "players/sign-in",
          payload := some { game := some g₀, name := some n } }).state.sent
      = st.sent ++
        [{ event := "games/status", payload := { game := some g₀ },
           ref := some (genRef st.nextRef) },
         { event := "players/status", payload := { game := some g₀ },
           ref := some (genRef (st.nextRef + 1)) }] ∧
    (messageHandler oracle (fuel + 2) st
        { event := "players/sign-in",
          payload := some { game := some g₀, name := some n } }).state.games
      = st.games ++ [signInApply (mergePayload
          { game := some g₀, name := pl₁.name, connected := some true,
            players := pl₁.players, supports := pl₁.supports } pl₂) (some n)] ∧
    ∃ gm, (messageHandler oracle (fuel + 2) st
        { event := "players/sign-in",
          payload := some { game := some g₀, name := some n } }).state.games.find?
          (fun g => g.game = some g₀) = some gm ∧ n ∈ gm.players.getD [] := by
  set newG : Game := { game := some g₀, name := pl₁.name, connected := some true,
                       players := pl₁.players, supports := pl₁.supports } with hnewG
  have hnewGgame : newG.game = some g₀ := rfl
  have h1 : gamesStatusApply st.games pl₁ = st.games ++ [newG] := by
    simp [gamesStatusApply, hpl₁, habsent, hnewG]
  have h2 : playersStatusApply (st.games ++ [newG]) pl₂ =
      st.games ++ [mergePayload newG pl₂] := by
    simp [playersStatusApply, hpl₂, List.find?_cons, updateFirst,
      find?_append_of_none, updateFirst_append_of_none, habsent, hnewGgame]
  have h3 : (st.games ++ [mergePayload newG pl₂]).find? (fun g => g.game = some g₀) =
      some (mergePayload newG pl₂) := by
    rw [find?_append_of_none _ habsent]
    simp [List.find?_cons, mergePayload, hpl₂]
  have h4 : updateFirst (st.games ++ [mergePayload newG pl₂])
        (fun g => g.game = some g₀) (fun g => signInApply g (some n)) =
      st.games ++ [signInApply (mergePayload newG pl₂) (some n)] := by
    rw [updateFirst_append_of_none _ habsent]
    simp [updateFirst, mergePayload, hpl₂]
  have hgame5 : (signInApply (mergePayload newG pl₂) (some n)).game = some g₀ := by
    rw [signInApply_game]
    simp [mergePayload, hpl₂]
  have h5 : (st.games ++ [signInApply (mergePayload newG pl₂) (some n)]).find?
        (fun g => g.game = some g₀) = some (signInApply (mergePayload newG pl₂) (some n)) := by
    rw [find?_append_of_none _ habsent]
    simp [List.find?_cons, hgame5]
  refine ⟨?_, ?_, ?_, ?_⟩
  · simp [messageHandler, messageHandlerStep, sendRegister, setWaiter, emitKey, lookupWaiter,
      outcomeOf, strTruthy_genRef, genRef_ne_empty, hor1, hor2, habsent, hg, strTruthy,
      HRes.state, HRes.isDone, List.find?_cons, Function.comp, h1, h2, h3, h4]
  · simp [messageHandler, messageHandlerStep, sendRegister, setWaiter, emitKey, lookupWaiter,
      outcomeOf, strTruthy_genRef, genRef_ne_empty, hor1, hor2, habsent, hg, strTruthy,
      HRes.state, List.find?_cons, Function.comp, h1, h2, h3, h4]
  · simp [messageHandler, messageHandlerStep, sendRegister, setWaiter, emitKey, lookupWaiter,
      outcomeOf, strTruthy_genRef, genRef_ne_empty, hor1, hor2, habsent, hg, strTruthy,
      HRes.state, List.find?_cons, Function.comp, h1, h2, h3, h4]
  · refine ⟨signInApply (mergePayload newG pl₂) (some n), ?_, signInApply_mem _ n⟩
    have hgames : (messageHandler oracle (fuel + 2) st
        { event := "players/sign-in",
          payload := some { game := some g₀, name := some n } }).state.games
      = st.games ++ [signInApply (mergePayload newG pl₂) (some n)] := by
      simp [messageHandler, messageHandlerStep, sendRegister, setWaiter, emitKey, lookupWaiter,
        outcomeOf, strTruthy_genRef, genRef_ne_empty, hor1, hor2, habsent, hg, strTruthy,
        HRes.state, List.find?_cons, Function.comp, h1, h2, h3, h4]
    rw [hgames, h5]

/-- C1 witness: the theorem at the empty initial directory, with the
`statusOracle` environment answering both pulls for game "Agora". -/
theorem signIn_unknown_game_pulls_then_applies_witness :
    (messageHandler statusOracle 2 initialSt
        { event := "players/sign-in",
          payload := some { game := some "Agora", name := some "Bob" } }).isDone = true ∧
    (messageHandler statusOracle 2 initialSt
        { event := "players/sign-in",
          payload := some { game := some "Agora", name := some "Bob" } }).state.sent
      = initialSt.sent ++
        [{ event := "games/status", payload := { game := some "Agora" },
           ref := some (genRef initialSt.nextRef) },
         { event := "players/status", payload := { game := some "Agora" },
           ref := some (genRef (initialSt.nextRef + 1)) }] ∧
    (messageHandler statusOracle 2 initialSt
        { event := "players/sign-in",
          payload := some { game := some "Agora", name := some "Bob" } }).state.games
      = initialSt.games ++ [signInApply (mergePayload
          { game := some "Agora", name := none, connected := some true,
            players := some ["Alice"], supports := none }
          { game := some "Agora", players := some ["Alice"] }) (some "Bob")] :=
  ⟨(signIn_unknown_game_pulls_then_applies statusOracle 0 initialSt "Agora" "Bob"
      { game := some "Agora", players := some ["Alice"] }
      { game := some "Agora", players := some ["Alice"] }
      (by decide) (by decide) rfl rfl rfl rfl).1,
   (signIn_unknown_game_pulls_then_applies statusOracle 0 initialSt "Agora" "Bob"
      { game := some "Agora", players := some ["Alice"] }
      { game := some "Agora", players := some ["Alice"] }
      (by decide) (by decide) rfl rfl rfl rfl).2.1,
   (signIn_unknown_game_pulls_then_applies statusOracle 0 initialSt "Agora" "Bob"
      { game := some "Agora", players := some ["Alice"] }
      { game := some "Agora", players := some ["Alice"] }
      (by decide) (by decide) rfl rfl rfl rfl).2.2.1⟩

/-- C2: a correlated `send(event, payload)` registers a one-shot waiter
under the event and the generated ref; over any trace of pull-free
inbound frames, the waiter is still pending after any prefix of frames
that do not carry the event-plus-ref key, and from the first frame
carrying the same event and ref it is settled — rejected with the
frame's error code when the frame has a (truthy) `error` field, resolved
with the full normalized response frame otherwise — and stays so settled
through the rest of the trace (settles exactly once).  The name-free
directory and payload hypotheses rule out the dead `g.name` lookup of the
player-offline invalidation throwing before the re-emit. -/
theorem send_correlated_settles_once
    (oracle : Oracle) (fuel : Nat) (st : St) (event : String) (payload : ReqPayload)
    (ms1 ms2 : List Msg) (m : Msg)
    (hms1 : ∀ x ∈ ms1, framePullFree x = true ∧ x.ref ≠ some (genRef st.nextRef) ∧
      emitKeyOfMsg x ≠ mkKey event (genRef st.nextRef) ∧ (x.payload.getD {}).name = none)
    (hms2 : ∀ x ∈ ms2, framePullFree x = true)
    (hnames : ∀ g ∈ st.games, g.name = none)
    (hm : framePullFree m = true) (hmev : m.event = event)
    (hmref : m.ref = some (genRef st.nextRef))
    (hp3 : m.event = "tells/send" → m.error = some "player offline" → payload.to_game.isSome) :
    lookupWaiter (processTrace oracle (fuel + 1) (sendRegister st event payload true).1 ms1).waiters
        (mkKey event (genRef st.nextRef)) = some .pending ∧
    lookupWaiter (processTrace oracle (fuel + 1) (sendRegister st event payload true).1
        (ms1 ++ m :: ms2)).waiters (mkKey event (genRef st.nextRef)) =
      some (.settled (if strTruthy m.error then .rejected (m.error.getD "")
        else .resolved (emittedMsgOf m))) := by
  set r := genRef st.nextRef with hr
  set key := mkKey event r with hkey
  set st1 := (sendRegister st event payload true).1 with hst1
  have hw1 : lookupWaiter st1.waiters key = some .pending := by
    rw [hst1]
    simp only [sendRegister, if_true]
    exact lookupWaiter_setWaiter _ _
  have hrefs1 : st1.refs.find? (fun e => e.1 = r) = some (r, payload) := by
    rw [hst1]
    simp only [sendRegister, if_true]
    rw [List.find?_cons_of_pos _ (by simp)]
  have hnames1 : ∀ g ∈ st1.games, g.name = none := by
    rw [hst1]
    simp only [sendRegister, if_true]
    exact hnames
  have hA : lookupWaiter (processTrace oracle (fuel + 1) st1 ms1).waiters key = some .pending :=
    trace_keeps_pending oracle fuel key ms1 st1 hw1
      (fun x hx => ⟨(hms1 x hx).1, (hms1 x hx).2.2.1⟩)
  refine ⟨hA, ?_⟩
  set st2 := processTrace oracle (fuel + 1) st1 ms1 with hst2
  have hrefs2 : st2.refs.find? (fun e => e.1 = r) = some (r, payload) :=
    trace_keeps_refs oracle fuel r payload ms1 st1 hrefs1
      (fun x hx => ⟨(hms1 x hx).1, (hms1 x hx).2.1⟩)
  have hnames2 : ∀ g ∈ st2.games, g.name = none :=
    trace_keeps_names oracle fuel ms1 st1 hnames1
      (fun x hx => ⟨(hms1 x hx).1, (hms1 x hx).2.2.2⟩)
  have hsafe : errorStepSafe st2 m = true := by
    by_cases he : strTruthy m.error = true
    · rw [errorStepSafe, he]
      simp only [Bool.not_true, Bool.false_or]
      have htr : strTruthy m.ref = true := by
        rw [hmref]
        exact strTruthy_genRef st.nextRef
      rw [if_pos htr, hmref]
      simp only [Option.getD_some]
      rw [hrefs2]
      simp only [Option.map_some']
      apply errorInvalidate_isOk
      intro hev3 herr3
      have hm3 : m.error = some "player offline" := by
        have h4 := strTruthy_eq_some he
        rw [herr3] at h4
        exact h4
      obtain ⟨tg, htg⟩ := Option.isSome_iff_exists.mp (hp3 hev3 hm3)
      rw [htg]
      rw [List.find?_eq_none]
      intro g hg
      simp [hnames2 g hg]
    · rw [errorStepSafe]
      simp [he]
  have hkeyeq : emitKeyOfMsg m = key := by
    by_cases he : strTruthy m.error = true
    · simp [emitKeyOfMsg, he, hmev, hmref, jsTemplate, hkey, hr]
    · simp [emitKeyOfMsg, he, hmev, hmref, hkey, hr]
  have hstep : lookupWaiter (messageHandler oracle (fuel + 1) st2 m).state.waiters key =
      some (.settled (outcomeOf (emittedMsgOf m))) := by
    show lookupWaiter (messageHandlerStep oracle (messageHandler oracle fuel) st2 m).state.waiters key
      = some (.settled (outcomeOf (emittedMsgOf m)))
    rw [step_pullFree_emit oracle (messageHandler oracle fuel) st2 m hm hsafe, hkeyeq]
    exact lookupWaiter_emitKey_pending _ hA
  rw [processTrace_append]
  rw [← hst2]
  rw [processTrace]
  rw [← outcomeOf_emitted m]
  exact trace_keeps_settled oracle fuel key (outcomeOf (emittedMsgOf m)) ms2 _ hstep hms2

/-- C9 (amended): a `send(event, payload, false)` without correlation
still registers a waiter under the key of the event with an empty ref
part; its promise is still pending after any trace of non-matching
pull-free frames, and settles exactly at the first inbound frame carrying
the same event and an absent or empty ref (the error-frame re-emit
prints an absent ref as "undefined", so an error frame matches only with
a present empty ref).  Completion therefore does depend on the arrival
of a matching inbound frame. -/
theorem send_without_correlation_settles_on_matching_frame
    (oracle : Oracle) (fuel : Nat) (st : St) (event : String) (payload : ReqPayload)
    (ms1 ms2 : List Msg) (m : Msg)
    (hms1 : ∀ x ∈ ms1, framePullFree x = true ∧ emitKeyOfMsg x ≠ mkKey event "")
    (hms2 : ∀ x ∈ ms2, framePullFree x = true)
    (hm : framePullFree m = true) (hmev : m.event = event)
    (hmref : m.ref = none ∨ m.ref = some "")
    (herrref : strTruthy m.error = true → m.ref = some "")
    (hnp : ¬ (m.event = "tells/send" ∧ m.error = some "player offline")) :
    lookupWaiter (processTrace oracle (fuel + 1) (sendRegister st event payload false).1 ms1).waiters
        (mkKey event "") = some .pending ∧
    lookupWaiter (processTrace oracle (fuel + 1) (sendRegister st event payload false).1
        (ms1 ++ m :: ms2)).waiters (mkKey event "") =
      some (.settled (if strTruthy m.error then .rejected (m.error.getD "")
        else .resolved (emittedMsgOf m))) := by
  set key := mkKey event "" with hkey
  set st1 := (sendRegister st event payload false).1 with hst1
  have hw1 : lookupWaiter st1.waiters key = some .pending := by
    rw [hst1]
    simp only [sendRegister, Bool.false_eq_true, if_false]
    exact lookupWaiter_setWaiter _ _
  have hA : lookupWaiter (processTrace oracle (fuel + 1) st1 ms1).waiters key = some .pending :=
    trace_keeps_pending oracle fuel key ms1 st1 hw1
      (fun x hx => ⟨(hms1 x hx).1, (hms1 x hx).2⟩)
  refine ⟨hA, ?_⟩
  set st2 := processTrace oracle (fuel + 1) st1 ms1 with hst2
  have hsafe : errorStepSafe st2 m = true := by
    by_cases he : strTruthy m.error = true
    · rw [errorStepSafe, he]
      simp only [Bool.not_true, Bool.false_or]
      have htr : strTruthy m.ref = false := by
        rw [herrref he]
        rfl
      rw [if_neg (by rw [htr]; exact Bool.false_ne_true)]
      apply errorInvalidate_isOk
      intro hev3 herr3
      exfalso
      apply hnp
      refine ⟨hev3, ?_⟩
      have h4 := strTruthy_eq_some he
      rw [herr3] at h4
      exact h4
    · rw [errorStepSafe]
      simp [he]
  have hkeyeq : emitKeyOfMsg m = key := by
    by_cases he : strTruthy m.error = true
    · simp [emitKeyOfMsg, he, hmev, herrref he, jsTemplate, hkey]
    · rcases hmref with h2 | h2 <;> simp [emitKeyOfMsg, he, hmev, h2, hkey]
  have hstep : lookupWaiter (messageHandler oracle (fuel + 1) st2 m).state.waiters key =
      some (.settled (outcomeOf (emittedMsgOf m))) := by
    show lookupWaiter (messageHandlerStep oracle (messageHandler oracle fuel) st2 m).state.waiters key
      = some (.settled (outcomeOf (emittedMsgOf m)))
    rw [step_pullFree_emit oracle (messageHandler oracle fuel) st2 m hm hsafe, hkeyeq]
    exact lookupWaiter_emitKey_pending _ hA
  rw [processTrace_append]
  rw [← hst2]
  rw [processTrace]
  rw [← outcomeOf_emitted m]
  exact trace_keeps_settled oracle fuel key (outcomeOf (emittedMsgOf m)) ms2 _ hstep hms2


/-- C2 witness: the theorem at a concrete correlated `tells/send`
request, one unrelated broadcast frame, then the matching ack. -/
theorem send_correlated_settles_once_witness :
    lookupWaiter (processTrace idleOracle 1
        (sendRegister initialSt "tells/send"
          { to_game := some "Agora", to_name := some "Alice" } true).1
        [{ event := "channels/broadcast" }]).waiters
      (mkKey "tells/send" (genRef initialSt.nextRef)) = some .pending ∧
    lookupWaiter (processTrace idleOracle 1
        (sendRegister initialSt "tells/send"
          { to_game := some "Agora", to_name := some "Alice" } true).1
        ([{ event := "channels/broadcast" }] ++
          { event := "tells/send", ref := some (genRef initialSt.nextRef) } :: [])).waiters
      (mkKey "tells/send" (genRef initialSt.nextRef)) =
    some (.settled (if strTruthy (Msg.error { event := "tells/send", ref := some (genRef initialSt.nextRef) })
      then .rejected ((Msg.error { event := "tells/send", ref := some (genRef initialSt.nextRef) }).getD "")
      else .resolved (emittedMsgOf { event := "tells/send", ref := some (genRef initialSt.nextRef) }))) :=
  send_correlated_settles_once idleOracle 0 initialSt "tells/send"
    { to_game := some "Agora", to_name := some "Alice" }
    [{ event := "channels/broadcast" }] []
    { event := "tells/send", ref := some (genRef initialSt.nextRef) }
    (by decide) (by decide) (by decide) (by decide) rfl rfl (by decide)

/-- C9 counterexample: an uncorrelated `send('authenticate', p, false)`
registers a waiter whose promise is still pending right after
registration and after an unrelated inbound frame, and which resolves
exactly when a matching `authenticate` frame arrives — so its completion
does depend on the arrival of an inbound frame, contradicting the claim
that `send` without correlation never blocks waiting for a reply. -/
theorem send_without_correlation_still_waits :
    lookupWaiter (sendRegister initialSt "authenticate" {} false).1.waiters
      (mkKey "authenticate" "") = some .pending ∧
    lookupWaiter (processTrace idleOracle 1
        (sendRegister initialSt "authenticate" {} false).1
        [{ event := "channels/broadcast" }]).waiters
      (mkKey "authenticate" "") = some .pending ∧
    lookupWaiter (processTrace idleOracle 1
        (sendRegister initialSt "authenticate" {} false).1
        [{ event := "authenticate" }]).waiters
      (mkKey "authenticate" "") =
    some (.settled (.resolved { event := "authenticate", payload := some {}, ref := some "" })) := by
  decide

/-- C9 witness: the amended theorem at a concrete uncorrelated
`authenticate` send, one unrelated frame, then the matching reply. -/
theorem send_without_correlation_settles_on_matching_frame_witness :
    lookupWaiter (processTrace idleOracle 1
        (sendRegister initialSt "authenticate" {} false).1
        [{ event := "channels/broadcast" }]).waiters
      (mkKey "authenticate" "") = some .pending ∧
    lookupWaiter (processTrace idleOracle 1
        (sendRegister initialSt "authenticate" {} false).1
        ([{ event := "channels/broadcast" }] ++ { event := "authenticate" } :: [])).waiters
      (mkKey "authenticate" "") =
    some (.settled (if strTruthy (Msg.error { event := "authenticate" })
      then .rejected ((Msg.error { event := "authenticate" }).getD "")
      else .resolved (emittedMsgOf { event := "authenticate" }))) :=
  send_without_correlation_settles_on_matching_frame idleOracle 0 initialSt "authenticate" {}
    [{ event := "channels/broadcast" }] [] { event := "authenticate" }
    (by decide) (by decide) (by decide) rfl (Or.inl rfl) (by decide) (by decide)

end Gossiphaus
